import Mathlib

/-!
Verification of the queue inspection engine of kuri-aws-watcher.

The development shallowly embeds the relevant parts of the Python
sources (src/list_dlq_items.py and src/count_sqs_queue_itens.py):

* `safe_compare_values` embeds `DLQItemsLister._safe_compare_values`;
* `apply_filters` embeds `FilterCriteria.apply_filters`;
* `receiveLoop` / `get_messages_from_queue` embed
  `DLQItemsLister.get_messages_from_queue`, the paginated bounded-batch
  fetch; the SQS transport is modelled by a finite trace of responses,
  one per `receive_message` call (an exhausted trace behaves as an
  empty response, i.e. the queue is exhausted);
* `processMessage` / `countMessagesLoop` / `count_messages_by_field`
  embed `DLQItemsLister.count_messages_by_field`;
* `time_period_filter` embeds the time-window predicate built by
  `DLQItemsLister._setup_time_period_filter`;
* `detect_changes` embeds `QueueChangeTracker.detect_changes`, with the
  mutable `previous_counts` dict modelled as a function state that is
  threaded explicitly.

Python values that the comparator can see are modelled by `PyVal`.
Python string `strip`/`lower` are modelled over the underlying
character lists (ASCII lowering, as in the identifiers and keywords the
program compares). Python `float(...)` applied to a decimal literal is
modelled exactly by a mantissa/scale pair `PyFloat` with
cross-multiplication equality; the claims under study never depend on
binary floating-point rounding.
-/

/-- Values a message field can carry when handed to the comparator:
Python `None`, a string, or an integer. -/
inductive PyVal where
  | none : PyVal
  | str : String → PyVal
  | int : Int → PyVal
deriving DecidableEq, Repr

/-- Python `str(value)` for the values of `PyVal`. -/
def pyStr : PyVal → String
  | PyVal.none => "None"
  | PyVal.str s => s
  | PyVal.int n => toString n

/-- Python `s.strip()`: removes leading and trailing whitespace. -/
def pyStrip (s : String) : String :=
  String.mk (((s.data.dropWhile Char.isWhitespace).reverse.dropWhile
    Char.isWhitespace).reverse)

/-- Python `s.lower()` on the ASCII strings the program compares. -/
def pyLower (s : String) : String :=
  String.mk (s.data.map Char.toLower)

/-- Numeric value of a list of decimal digit characters. -/
def digitsVal (cs : List Char) : Nat :=
  cs.foldl (fun a c => 10 * a + (c.toNat - '0'.toNat)) 0

/-- Parses a nonempty all-digit character list, as used by Python
numeric literals. -/
def parseDigits? (cs : List Char) : Option Nat :=
  if cs.isEmpty then Option.none
  else if cs.all Char.isDigit then Option.some (digitsVal cs)
  else Option.none

/-- Strips one optional leading sign, returning whether it was a minus
together with the remaining characters. -/
def parseSigned (cs : List Char) : Bool × List Char :=
  match cs with
  | '+' :: rest => (false, rest)
  | '-' :: rest => (true, rest)
  | rest => (false, rest)

/-- Splits a character list at the first occurrence of a character
satisfying `p`: the part before it, and the part after it when found. -/
def splitAtFirst (p : Char → Bool) : List Char → List Char × Option (List Char)
  | [] => ([], Option.none)
  | c :: rest =>
    if p c then ([], Option.some rest)
    else
      let (pre, post) := splitAtFirst p rest
      (c :: pre, post)

/-- Exact value of a Python decimal float literal: `mant / 10 ^ scale`. -/
structure PyFloat where
  mant : Int
  scale : Nat
deriving DecidableEq, Repr

/-- Numeric equality of two decimal values, by cross multiplication. -/
def pyFloatEq (a b : PyFloat) : Bool :=
  a.mant * (10 : Int) ^ b.scale == b.mant * (10 : Int) ^ a.scale

/-- Numeric strict order of two decimal values, by cross
multiplication. -/
def pyFloatLt (a b : PyFloat) : Bool :=
  a.mant * (10 : Int) ^ b.scale < b.mant * (10 : Int) ^ a.scale

/-- Mantissa of a Python float literal: `digits`, `digits.digits?`, or
`.digits`. -/
def parseMantissa? (cs : List Char) : Option PyFloat :=
  let (ip, fp?) := splitAtFirst (fun c => c == '.') cs
  match fp? with
  | Option.none => (parseDigits? ip).map (fun n => PyFloat.mk (n : Int) 0)
  | Option.some fp =>
    if ip.isEmpty && fp.isEmpty then Option.none
    else if ip.all Char.isDigit && fp.all Char.isDigit then
      Option.some (PyFloat.mk (digitsVal ip * 10 ^ fp.length + digitsVal fp : Nat) fp.length)
    else Option.none

/-- Python `float(s)` on an already-stripped string: optional sign,
decimal mantissa, optional decimal exponent. Returns `Option.none`
where Python raises `ValueError`. -/
def pyFloat? (s : String) : Option PyFloat :=
  let (negM, cs) := parseSigned s.data
  let (mant, exp?) := splitAtFirst (fun c => c == 'e' || c == 'E') cs
  match parseMantissa? mant with
  | Option.none => Option.none
  | Option.some m =>
    let m := if negM then PyFloat.mk (-m.mant) m.scale else m
    match exp? with
    | Option.none => Option.some m
    | Option.some ecs =>
      let (negE, ecs) := parseSigned ecs
      match parseDigits? ecs with
      | Option.none => Option.none
      | Option.some e =>
        Option.some (if negE then PyFloat.mk m.mant (m.scale + e)
                     else PyFloat.mk (m.mant * (10 : Int) ^ e) m.scale)

/-- Python `int(s)`: optional sign and a nonempty digit string, after
stripping surrounding whitespace. Returns `Option.none` where Python
raises `ValueError`. -/
def pyInt? (s : String) : Option Int :=
  let (neg, cs) := parseSigned (pyStrip s).data
  match parseDigits? cs with
  | Option.none => Option.none
  | Option.some n => Option.some (if neg then -(n : Int) else (n : Int))

/-- The fixed truthy keyword set of `_safe_compare_values`:
`['true', '1', 'yes', 'sim']`. -/
def truthySet : List String := ["true", "1", "yes", "sim"]

/-- The numeric-comparison block of `_safe_compare_values`:
`float(str_value1) == float(str_value2)` guarded by
`except (ValueError, TypeError)`, hence `false` when either parse
fails. -/
def numEq (s1 s2 : String) : Bool :=
  match pyFloat? s1, pyFloat? s2 with
  | Option.some a, Option.some b => pyFloatEq a b
  | _, _ => false

/-- Embeds `DLQItemsLister._safe_compare_values` from
src/list_dlq_items.py: both `None` are equal; exactly one `None` is
unequal; otherwise the stripped stringifications are compared
case-insensitively, then numerically, then by membership of the
lowercased strings in the fixed truthy set (equal truthiness counts as
equality), and `false` otherwise. -/
def safe_compare_values (value1 value2 : PyVal) : Bool :=
  if value1 = PyVal.none ∧ value2 = PyVal.none then true
  else if value1 = PyVal.none ∨ value2 = PyVal.none then false
  else
    let str_value1 := pyStrip (pyStr value1)
    let str_value2 := pyStrip (pyStr value2)
    if pyLower str_value1 = pyLower str_value2 then true
    else if numEq str_value1 str_value2 then true
    else if truthySet.contains (pyLower str_value1)
            = truthySet.contains (pyLower str_value2) then true
    else false

/-- Embeds `FilterCriteria.apply_filters` from src/list_dlq_items.py:
with no filters the input is returned unchanged; otherwise a message is
kept exactly when every filter function accepts it (the source loop
breaks at the first failing filter, which is the same conjunction). -/
def apply_filters {α : Type} (filters : List (α → Bool)) (messages : List α) : List α :=
  if filters.isEmpty then messages
  else messages.filter (fun m => filters.all (fun f => f m))

/-- Result of one run of `get_messages_from_queue`: the messages
returned, the `MaxNumberOfMessages` value of every `receive_message`
call issued (in order), and whether the run ended in the exception
handler. -/
structure FetchResult (M : Type) where
  messages : List M
  calls : List Nat
  errored : Bool
deriving DecidableEq, Repr

/-- Loop body of `DLQItemsLister.get_messages_from_queue`
(src/list_dlq_items.py). The transport is a finite trace of responses,
one per `receive_message` call: `Except.error` models a raised
exception (caught by the surrounding handler, which returns `[]`), and
`Except.ok msgs` a successful response. An exhausted trace behaves as
an empty response. While `messages_received < max_messages`, the loop
requests `min 10 (max_messages - received)` messages, breaks on an
empty response, and otherwise accumulates the batch. -/
def receiveLoop {M : Type} (max_messages : Nat) :
    List (Except Unit (List M)) → Nat → List M → List Nat → FetchResult M
  | oracle, received, all_messages, sizes =>
    if received < max_messages then
      let batch_size := min 10 (max_messages - received)
      match oracle with
      | [] => FetchResult.mk all_messages (sizes ++ [batch_size]) false
      | Except.error _ :: _ => FetchResult.mk [] (sizes ++ [batch_size]) true
      | Except.ok msgs :: rest =>
        if msgs.isEmpty then FetchResult.mk all_messages (sizes ++ [batch_size]) false
        else receiveLoop max_messages rest (received + msgs.length)
               (all_messages ++ msgs) (sizes ++ [batch_size])
    else FetchResult.mk all_messages sizes false

/-- Embeds `DLQItemsLister.get_messages_from_queue`: runs the batched
receive loop from an empty accumulator. -/
def get_messages_from_queue {M : Type} (oracle : List (Except Unit (List M)))
    (max_messages : Nat) : FetchResult M :=
  receiveLoop max_messages oracle 0 [] []

/-- One entry of a queue snapshot handed to
`QueueChangeTracker.detect_changes`: a numeric count, or the error
sentinel string stored by `run()` when the transport call failed. -/
inductive SnapEntry where
  | int : Int → SnapEntry
  | err : String → SnapEntry
deriving DecidableEq, Repr

/-- One change record built by `QueueChangeTracker.detect_changes`. -/
structure Change where
  previous_count : Int
  current_count : Int
  delta : Int
  change_type : String
deriving DecidableEq, Repr

/-- The `previous_counts` dict of `QueueChangeTracker`, modelled as a
partial map from queue name to stored count. -/
def PrevCounts : Type := String → Option Int

/-- Dict update `previous_counts[queue_name] = current_count`. -/
def storeCount (prev : PrevCounts) (queue_name : String) (current_count : Int) :
    PrevCounts :=
  fun n => if n = queue_name then Option.some current_count else prev n

/-- Embeds `QueueChangeTracker.detect_changes` from
src/count_sqs_queue_itens.py. The snapshot dict is modelled as the
list of its entries in iteration order; the result is the updated
`previous_counts` state together with the `changes` entries in
insertion order. Non-integer entries are skipped; a first observation
only stores the count; otherwise a change record is emitted exactly
when the delta is nonzero, and the stored count is always updated. -/
def detect_changes (prev : PrevCounts) :
    List (String × SnapEntry) → PrevCounts × List (String × Change)
  | [] => (prev, [])
  | (queue_name, current) :: rest =>
    match current with
    | SnapEntry.err _ => detect_changes prev rest
    | SnapEntry.int current_count =>
      match prev queue_name with
      | Option.none => detect_changes (storeCount prev queue_name current_count) rest
      | Option.some previous_count =>
        if current_count - previous_count ≠ 0 then
          ((detect_changes (storeCount prev queue_name current_count) rest).1,
           (queue_name, Change.mk previous_count current_count
              (current_count - previous_count)
              (if current_count - previous_count > 0 then "increase" else "decrease"))
             :: (detect_changes (storeCount prev queue_name current_count) rest).2)
        else detect_changes (storeCount prev queue_name current_count) rest

/-- Body of one message as seen by `count_messages_by_field` after
`json.loads`: the load raises (`invalid`), succeeds with a non-dict
value (`nonDict`), or yields a JSON object given by its key/value
entries. -/
inductive Body where
  | invalid : Body
  | nonDict : Body
  | dict : List (String × PyVal) → Body
deriving DecidableEq, Repr

/-- The four counters of `count_messages_by_field`. -/
structure CountState where
  total_count : Nat
  total_processed : Nat
  messages_with_json_errors : Nat
  messages_without_field : Nat
deriving DecidableEq, Repr

/-- Counters at the start of a `count_messages_by_field` run. -/
def initCountState : CountState := CountState.mk 0 0 0 0

/-- Per-message block of `count_messages_by_field`: `total_processed`
always increments; a body that fails to load or is not a dict counts
under `messages_with_json_errors`; a dict without the field counts
under `messages_without_field`; otherwise the field value is compared
to the target with `_safe_compare_values` and `total_count` increments
on a match. -/
def processMessage (field_name : String) (field_value : PyVal)
    (st : CountState) (msg : Body) : CountState :=
  let st := { st with total_processed := st.total_processed + 1 }
  match msg with
  | Body.invalid => { st with messages_with_json_errors := st.messages_with_json_errors + 1 }
  | Body.nonDict => { st with messages_with_json_errors := st.messages_with_json_errors + 1 }
  | Body.dict kvs =>
    match kvs.lookup field_name with
    | Option.none => { st with messages_without_field := st.messages_without_field + 1 }
    | Option.some v =>
      if safe_compare_values v field_value then
        { st with total_count := st.total_count + 1 }
      else st

/-- Python truthiness of the `max_messages` argument in
`if max_messages and total_processed >= max_messages`: `None` and `0`
are falsy, so both mean an unbounded run. -/
def mmTruthy : Option Nat → Bool
  | Option.none => false
  | Option.some n => n != 0

/-- Main loop of `DLQItemsLister.count_messages_by_field`
(src/list_dlq_items.py). Each trace element is one `receive_message`
response; `Except.error` models an exception during the fetch, caught
by the handler that returns the counts accumulated so far. The loop
breaks when the truthy limit has been reached or a response is empty,
and otherwise folds the per-message block over the batch. -/
def countMessagesLoop (field_name : String) (field_value : PyVal)
    (max_messages : Option Nat) :
    List (Except Unit (List Body)) → CountState → CountState
  | [], st => st
  | resp :: rest, st =>
    if mmTruthy max_messages = true ∧ max_messages.getD 0 ≤ st.total_processed then st
    else
      match resp with
      | Except.error _ => st
      | Except.ok msgs =>
        if msgs.isEmpty then st
        else countMessagesLoop field_name field_value max_messages rest
               (msgs.foldl (processMessage field_name field_value) st)

/-- Embeds `DLQItemsLister.count_messages_by_field`: the function
returns only `total_count`, the number of matched messages. -/
def count_messages_by_field (field_name : String) (field_value : PyVal)
    (max_messages : Option Nat) (oracle : List (Except Unit (List Body))) : Nat :=
  (countMessagesLoop field_name field_value max_messages oracle initCountState).total_count

/-- Python `start_dt and msg_time < start_dt`: false when no start
bound is configured. -/
def beforeStart (start_dt : Option PyFloat) (t : PyFloat) : Bool :=
  match start_dt with
  | Option.some st => pyFloatLt t st
  | Option.none => false

/-- Python `end_dt and msg_time > end_dt`: false when no end bound is
configured. -/
def afterEnd (end_dt : Option PyFloat) (t : PyFloat) : Bool :=
  match end_dt with
  | Option.some en => pyFloatLt en t
  | Option.none => false

/-- Embeds the `time_period_filter` closure built by
`DLQItemsLister._setup_time_period_filter` (src/list_dlq_items.py).
`start_dt` and `end_dt` are the configured bounds and the message time
is `int(sent_timestamp) / 1000` seconds, both carried as exact decimal
values `PyFloat` on the same scale. A missing or empty `SentTimestamp`
passes; a timestamp that `int()` rejects raises, and the handler
passes; otherwise the filter fails exactly on a time before `start_dt`
or after `end_dt`. -/
def time_period_filter (start_dt end_dt : Option PyFloat)
    (attributes : List (String × String)) : Bool :=
  match attributes.lookup "SentTimestamp" with
  | Option.none => true
  | Option.some sent_timestamp =>
    if sent_timestamp = "" then true
    else
      match pyInt? sent_timestamp with
      | Option.none => true
      | Option.some ts =>
        if beforeStart start_dt (PyFloat.mk ts 3) then false
        else if afterEnd end_dt (PyFloat.mk ts 3) then false
        else true

/-- Classifier for the `matched` bucket of `count_messages_by_field`:
the body is a dict, the field is present, and the safe comparison
succeeds. -/
def matches_field (field_name : String) (field_value : PyVal) : Body → Bool
  | Body.dict kvs =>
    match kvs.lookup field_name with
    | Option.some v => safe_compare_values v field_value
    | Option.none => false
  | _ => false

/-- Classifier for the `json_errors` bucket: the body fails to load or
loads to a non-dict value. -/
def isJsonError : Body → Bool
  | Body.invalid => true
  | Body.nonDict => true
  | _ => false

/-- Classifier for the `missing_field` bucket: a dict body without the
requested field. -/
def isMissingField (field_name : String) : Body → Bool
  | Body.dict kvs => (kvs.lookup field_name).isNone
  | _ => false

/-- Classifier for the remaining processed messages: a dict body whose
field is present but compares unequal. -/
def isOtherNonMatch (field_name : String) (field_value : PyVal) (b : Body) : Bool :=
  !(isJsonError b) && !(isMissingField field_name b)
    && !(matches_field field_name field_value b)

/-- The stream of message bodies a `count_messages_by_field` run
processes: batches are concatenated until the truthy limit is reached,
a fetch raises, or a batch comes back empty. -/
def processedBodies (max_messages : Option Nat) :
    List (Except Unit (List Body)) → Nat → List Body
  | [], _ => []
  | resp :: rest, processed =>
    if mmTruthy max_messages = true ∧ max_messages.getD 0 ≤ processed then []
    else
      match resp with
      | Except.error _ => []
      | Except.ok msgs =>
        if msgs.isEmpty then []
        else msgs ++ processedBodies max_messages rest (processed + msgs.length)

/-- C7: for every list of formatted messages and every predicate chain,
`apply_filters` returns exactly the subsequence of its input consisting
of the messages that satisfy every predicate, in input order; a chain
with zero predicates returns its input unchanged, and applying the
chain `[P1, P2]` equals applying `P1` and then `P2` to the
survivors. -/
theorem apply_filters_spec {α : Type} (filters : List (α → Bool))
    (messages : List α) (P1 P2 : α → Bool) :
    apply_filters filters messages
        = messages.filter (fun m => filters.all (fun f => f m)) ∧
    apply_filters ([] : List (α → Bool)) messages = messages ∧
    apply_filters [P1, P2] messages
        = apply_filters [P2] (apply_filters [P1] messages) ∧
    (apply_filters filters messages).Sublist messages := by
  refine ⟨?_, rfl, ?_, ?_⟩
  · unfold apply_filters
    cases filters with
    | nil => simp
    | cons f fs => simp
  · simp only [apply_filters, List.isEmpty_cons, List.isEmpty_nil,
      Bool.false_eq_true, if_false, List.filter_filter]
    apply List.filter_congr
    intro a _
    simp only [List.all_cons, List.all_nil, Bool.and_true]
    exact Bool.and_comm (P1 a) (P2 a)
  · unfold apply_filters
    split
    · exact List.Sublist.refl messages
    · exact List.filter_sublist messages

/-- C3 (counterexample): the comparator does not return `false` on
`("true", "Yes")`, because `"yes"` is in the fixed truthy set. -/
theorem safe_compare_true_yes_not_false :
    ¬ safe_compare_values (PyVal.str "true") (PyVal.str "Yes") = false := by decide

/-- C3 (amended): the spec test vectors as the code computes them —
`equals(None, None)` is true, `equals("1", 1)` is true, and
`equals("true", "Yes")` is true, since the lowercased `"yes"` belongs
to the truthy set `{"true", "1", "yes", "sim"}`. -/
theorem safe_compare_spec_vectors :
    safe_compare_values PyVal.none PyVal.none = true ∧
    safe_compare_values (PyVal.str "1") (PyVal.int 1) = true ∧
    safe_compare_values (PyVal.str "true") (PyVal.str "Yes") = true := by decide

/-- C4: for non-null values whose stripped stringifications are not
case-insensitively equal, whose numeric comparison fails, and neither
of whose lowercased stripped strings belongs to the truthy set, the
comparator returns `true`: both sides coerce to the boolean `false`
and the equal booleans are taken as equality. -/
theorem safe_compare_both_falsy (value1 value2 : PyVal)
    (h1 : value1 ≠ PyVal.none) (h2 : value2 ≠ PyVal.none)
    (hs : pyLower (pyStrip (pyStr value1)) ≠ pyLower (pyStrip (pyStr value2)))
    (hn : numEq (pyStrip (pyStr value1)) (pyStrip (pyStr value2)) = false)
    (ht1 : truthySet.contains (pyLower (pyStrip (pyStr value1))) = false)
    (ht2 : truthySet.contains (pyLower (pyStrip (pyStr value2))) = false) :
    safe_compare_values value1 value2 = true := by
  have ht1m : pyLower (pyStrip (pyStr value1)) ∉ truthySet := by simpa using ht1
  have ht2m : pyLower (pyStrip (pyStr value2)) ∉ truthySet := by simpa using ht2
  simp [safe_compare_values, h1, h2, hs, hn, ht1m, ht2m]

/-- C4 (witness): `_safe_compare_values("apple", "banana")` is true. -/
theorem safe_compare_both_falsy_witness :
    safe_compare_values (PyVal.str "apple") (PyVal.str "banana") = true :=
  safe_compare_both_falsy (PyVal.str "apple") (PyVal.str "banana")
    (by decide) (by decide) (by decide) (by decide) (by decide) (by decide)

/-- C5: for any tracker state, the first observation of a queue name
stores the count and emits no change; a subsequent observation always
updates the stored count, emits nothing when the delta is zero, and
emits exactly one change with `delta = current - previous` and kind
`increase`/`decrease` by the sign of the delta when it is nonzero. -/
theorem detect_changes_single (prev : PrevCounts) (name : String) (c : Int) :
    (prev name = Option.none →
      (detect_changes prev [(name, SnapEntry.int c)]).2 = [] ∧
      (detect_changes prev [(name, SnapEntry.int c)]).1 name = Option.some c) ∧
    (∀ p, prev name = Option.some p →
      (detect_changes prev [(name, SnapEntry.int c)]).1 name = Option.some c ∧
      (c - p = 0 → (detect_changes prev [(name, SnapEntry.int c)]).2 = []) ∧
      (c - p ≠ 0 → (detect_changes prev [(name, SnapEntry.int c)]).2 =
        [(name, Change.mk p c (c - p)
          (if c - p > 0 then "increase" else "decrease"))])) := by
  constructor
  · intro h
    simp [detect_changes, h, storeCount]
  · intro p h
    refine ⟨?_, ?_, ?_⟩
    · simp only [detect_changes, h]
      split
      · simp [detect_changes, storeCount]
      · simp [detect_changes, storeCount]
    · intro hz
      simp [detect_changes, h, hz]
    · intro hz
      simp [detect_changes, h, hz]

/-- C5 (witness): with a stored previous count of 5, observing 2 emits
the single change `{previous:5, current:2, delta:-3, decrease}`. -/
theorem detect_changes_single_witness :
    (detect_changes (storeCount (fun _ => Option.none) "q" 5)
        [("q", SnapEntry.int 2)]).2
      = [("q", Change.mk 5 2 (-3) "decrease")] := by
  have h := ((detect_changes_single (storeCount (fun _ => Option.none) "q" 5)
    "q" 2).2 5 rfl).2.2 (by decide)
  simpa using h

/-- C10: a queue name all of whose snapshot entries are error
sentinels, or which does not occur in the snapshot at all, produces no
change event and keeps its stored previous count unchanged. -/
theorem detect_changes_frame (prev : PrevCounts)
    (snap : List (String × SnapEntry)) (name : String)
    (h : ∀ v, (name, v) ∈ snap → ∃ s, v = SnapEntry.err s) :
    (detect_changes prev snap).1 name = prev name ∧
    name ∉ (detect_changes prev snap).2.map Prod.fst := by
  induction snap generalizing prev with
  | nil => simp [detect_changes]
  | cons entry rest ih =>
    obtain ⟨qn, v⟩ := entry
    have hrest : ∀ v, (name, v) ∈ rest → ∃ s, v = SnapEntry.err s :=
      fun v hv => h v (List.mem_cons_of_mem _ hv)
    by_cases hq : qn = name
    · subst hq
      obtain ⟨s, rfl⟩ := h v (List.mem_cons_self _ _)
      simpa [detect_changes] using ih prev hrest
    · have hnq : ¬ name = qn := fun hn => hq hn.symm
      cases v with
      | err s => simpa [detect_changes] using ih prev hrest
      | int c =>
        have hstore : storeCount prev qn c name = prev name := by
          simp [storeCount, hnq]
        have hrec := ih (storeCount prev qn c) hrest
        cases hpc : prev qn with
        | none =>
          simpa [detect_changes, hpc, hstore] using hrec
        | some p =>
          simp only [detect_changes, hpc]
          split
          · refine ⟨hstore ▸ hrec.1, ?_⟩
            simp only [List.map_cons, List.mem_cons]
            rintro (hn | hn)
            · exact hnq hn
            · exact hrec.2 hn
          · exact ⟨hstore ▸ hrec.1, hrec.2⟩

/-- C10 (witness): an error-sentinel entry for "a" leaves the stored
count for "a" untouched and emits no change for it. -/
theorem detect_changes_frame_witness :
    (detect_changes (storeCount (fun _ => Option.none) "a" 7)
        [("a", SnapEntry.err "x"), ("b", SnapEntry.int 3)]).1 "a"
      = Option.some 7 ∧
    "a" ∉ ((detect_changes (storeCount (fun _ => Option.none) "a" 7)
        [("a", SnapEntry.err "x"), ("b", SnapEntry.int 3)]).2.map Prod.fst) := by
  have h := detect_changes_frame (storeCount (fun _ => Option.none) "a" 7)
    [("a", SnapEntry.err "x"), ("b", SnapEntry.int 3)] "a"
    (by intro v hv; simp at hv; exact ⟨"x", hv⟩)
  simpa [storeCount] using h

/-- C9: the time-window predicate passes whenever `SentTimestamp` is
absent, empty, or fails integer parsing; it returns `false` only when
a successfully parsed timestamp falls strictly before the configured
start or strictly after the configured end. -/
theorem time_period_filter_fail_open (start_dt end_dt : Option PyFloat)
    (attributes : List (String × String)) :
    (attributes.lookup "SentTimestamp" = Option.none →
      time_period_filter start_dt end_dt attributes = true) ∧
    (∀ s, attributes.lookup "SentTimestamp" = Option.some s → s ≠ "" →
      pyInt? s = Option.none →
      time_period_filter start_dt end_dt attributes = true) ∧
    (time_period_filter start_dt end_dt attributes = false →
      ∃ s ts, attributes.lookup "SentTimestamp" = Option.some s ∧ s ≠ "" ∧
        pyInt? s = Option.some ts ∧
        ((∃ st, start_dt = Option.some st ∧ pyFloatLt (PyFloat.mk ts 3) st = true) ∨
         (∃ en, end_dt = Option.some en ∧ pyFloatLt en (PyFloat.mk ts 3) = true))) := by
  refine ⟨?_, ?_, ?_⟩
  · intro h
    simp [time_period_filter, h]
  · intro s hs hne hint
    simp [time_period_filter, hs, hne, hint]
  · intro hfail
    cases hl : attributes.lookup "SentTimestamp" with
    | none => simp [time_period_filter, hl] at hfail
    | some s =>
      simp only [time_period_filter, hl] at hfail
      by_cases hne : s = ""
      · simp [hne] at hfail
      · rw [if_neg hne] at hfail
        cases hint : pyInt? s with
        | none => simp [hint] at hfail
        | some ts =>
          simp only [hint] at hfail
          refine ⟨s, ts, rfl, hne, hint, ?_⟩
          by_cases h1 : beforeStart start_dt (PyFloat.mk ts 3) = true
          · left
            cases hst : start_dt with
            | some st =>
              rw [hst] at h1
              exact ⟨st, rfl, by simpa [beforeStart] using h1⟩
            | none => rw [hst] at h1; simp [beforeStart] at h1
          · by_cases h2 : afterEnd end_dt (PyFloat.mk ts 3) = true
            · right
              cases hen : end_dt with
              | some en =>
                rw [hen] at h2
                exact ⟨en, rfl, by simpa [afterEnd] using h2⟩
              | none => rw [hen] at h2; simp [afterEnd] at h2
            · simp [h1, h2] at hfail

/-- C9 (witness): with no `SentTimestamp` attribute the filter passes
even when both bounds are configured. -/
theorem time_period_filter_fail_open_witness :
    time_period_filter (Option.some (PyFloat.mk 1 0))
      (Option.some (PyFloat.mk 2 0)) [("other", "1")] = true :=
  (time_period_filter_fail_open (Option.some (PyFloat.mk 1 0))
    (Option.some (PyFloat.mk 2 0)) [("other", "1")]).1 (by decide)

/-- One-step unfolding of `receiveLoop`, stated as the loop body of the
source. -/
theorem receiveLoop_eq {M : Type} (max_messages : Nat)
    (oracle : List (Except Unit (List M))) (received : Nat)
    (acc : List M) (sizes : List Nat) :
    receiveLoop max_messages oracle received acc sizes =
      if received < max_messages then
        match oracle with
        | [] => FetchResult.mk acc (sizes ++ [min 10 (max_messages - received)]) false
        | Except.error _ :: _ =>
            FetchResult.mk [] (sizes ++ [min 10 (max_messages - received)]) true
        | Except.ok msgs :: rest =>
            if msgs.isEmpty then
              FetchResult.mk acc (sizes ++ [min 10 (max_messages - received)]) false
            else receiveLoop max_messages rest (received + msgs.length)
                   (acc ++ msgs) (sizes ++ [min 10 (max_messages - received)])
      else FetchResult.mk acc sizes false := by
  cases oracle with
  | nil => rfl
  | cons resp rest =>
    cases resp with
    | error e => rfl
    | ok msgs => rfl

/-- Helper for C1: whenever a run of the receive loop ends in the
exception handler, the returned message list is empty, whatever was
accumulated before. -/
theorem receiveLoop_errored_nil {M : Type} (max_messages : Nat) :
    ∀ (oracle : List (Except Unit (List M))) (received : Nat)
      (acc : List M) (sizes : List Nat),
      (receiveLoop max_messages oracle received acc sizes).errored = true →
      (receiveLoop max_messages oracle received acc sizes).messages = [] := by
  intro oracle
  induction oracle with
  | nil =>
    intro received acc sizes h
    rw [receiveLoop_eq] at h ⊢
    split at h
    · simp at h
    · simp at h
  | cons resp rest ih =>
    intro received acc sizes h
    cases resp with
    | error e =>
      rw [receiveLoop_eq] at h ⊢
      by_cases hrec : received < max_messages
      · rw [if_pos hrec]
      · rw [if_neg hrec] at h; simp at h
    | ok msgs =>
      rw [receiveLoop_eq] at h ⊢
      by_cases hrec : received < max_messages
      · rw [if_pos hrec] at h ⊢
        dsimp only at h ⊢
        by_cases hemp : msgs.isEmpty
        · rw [if_pos hemp] at h; simp at h
        · rw [if_neg hemp] at h ⊢
          exact ih _ _ _ h
      · rw [if_neg hrec] at h; simp at h

/-- Transport trace on which the second fetch call raises, after a
first successful batch of three messages. -/
def oracleC1 : List (Except Unit (List Nat)) := [Except.ok [1, 2, 3], Except.error ()]

/-- C1 (counterexample): on `oracleC1` with limit 15, the run errors
and `get_messages_from_queue` returns `[]`, not the three messages
collected in the earlier successful batch. -/
theorem get_messages_error_drops_partial :
    (get_messages_from_queue oracleC1 15).errored = true ∧
    (get_messages_from_queue oracleC1 15).messages = [] ∧
    (get_messages_from_queue oracleC1 15).messages ≠ [1, 2, 3] := by decide

/-- C1 (amended): a transport error aborts retrieval for the queue
without raising, but the function returns the empty list, discarding
the messages collected in earlier successful batches. -/
theorem get_messages_error_returns_nil {M : Type}
    (oracle : List (Except Unit (List M))) (max_messages : Nat)
    (h : (get_messages_from_queue oracle max_messages).errored = true) :
    (get_messages_from_queue oracle max_messages).messages = [] :=
  receiveLoop_errored_nil max_messages oracle 0 [] [] h

/-- C1 (witness): the amended statement at the concrete trace
`oracleC1` with limit 15. -/
theorem get_messages_error_returns_nil_witness :
    (get_messages_from_queue oracleC1 15).messages = [] :=
  get_messages_error_returns_nil oracleC1 15 (by decide)

/-- Transport trace whose first response carries five messages, fewer
than the ten requested, followed by another five. -/
def oracleC2 : List (Except Unit (List Nat)) :=
  [Except.ok [1, 2, 3, 4, 5], Except.ok [6, 7, 8, 9, 10]]

/-- C2 (counterexample): with limit 10, the first call returns only
five of the ten requested messages, yet the loop does not stop early:
it issues a second call (requesting the remaining five), so two calls
are issued where the claim predicts exactly one. -/
theorem fetch_underfull_batch_does_not_stop :
    (get_messages_from_queue oracleC2 10).calls = [10, 5] ∧
    (get_messages_from_queue oracleC2 10).calls.length ≠ 1 ∧
    (get_messages_from_queue oracleC2 10).messages.length = 10 := by decide

/-- Helper for C2: on a trace whose successive responses are successful
batches of exactly the size requested at that point, the loop issues
one call per batch — `ceil(remaining/10)` calls — and retrieves exactly
the missing number of messages. -/
theorem receiveLoop_full {M : Type} (max_messages : Nat) :
    ∀ (oracle : List (Except Unit (List M))) (received : Nat)
      (acc : List M) (sizes : List Nat),
      received < max_messages →
      (∀ k, k < (max_messages - received + 9) / 10 →
        ∃ msgs, oracle.get? k = Option.some (Except.ok msgs) ∧
          msgs.length = min 10 (max_messages - (received + 10 * k))) →
      (receiveLoop max_messages oracle received acc sizes).calls.length
          = sizes.length + (max_messages - received + 9) / 10 ∧
      (receiveLoop max_messages oracle received acc sizes).messages.length
          = acc.length + (max_messages - received) ∧
      (receiveLoop max_messages oracle received acc sizes).errored = false := by
  intro oracle
  induction oracle with
  | nil =>
    intro received acc sizes hrec hfull
    exfalso
    have h0 : 0 < (max_messages - received + 9) / 10 := by omega
    obtain ⟨msgs, hget, _⟩ := hfull 0 h0
    simp at hget
  | cons resp rest ih =>
    intro received acc sizes hrec hfull
    have h0 : 0 < (max_messages - received + 9) / 10 := by omega
    obtain ⟨msgs, hget, hlen⟩ := hfull 0 h0
    simp only [List.get?_cons_zero, Option.some.injEq] at hget
    subst hget
    have hmin : msgs.length = min 10 (max_messages - received) := by simpa using hlen
    have hpos : 0 < msgs.length := by omega
    have hne : ¬ msgs.isEmpty = true := by
      simp only [List.isEmpty_iff_length_eq_zero]
      omega
    rw [receiveLoop_eq, if_pos hrec]
    dsimp only
    rw [if_neg hne]
    by_cases h2 : received + msgs.length < max_messages
    · have hb : msgs.length = 10 := by omega
      have hrest : ∀ k, k < (max_messages - (received + msgs.length) + 9) / 10 →
          ∃ ms, rest.get? k = Option.some (Except.ok ms) ∧
            ms.length = min 10 (max_messages - (received + msgs.length + 10 * k)) := by
        intro k hk
        obtain ⟨ms, hg, hl⟩ := hfull (k + 1) (by omega)
        refine ⟨ms, by simpa using hg, ?_⟩
        have harith : received + 10 * (k + 1) = received + msgs.length + 10 * k := by omega
        rw [harith] at hl
        exact hl
      obtain ⟨hc, hm, he⟩ := ih (received + msgs.length) (acc ++ msgs)
        (sizes ++ [min 10 (max_messages - received)]) h2 hrest
      refine ⟨?_, ?_, he⟩
      · rw [hc]
        simp only [List.length_append, List.length_cons, List.length_nil]
        omega
      · rw [hm]
        simp only [List.length_append]
        omega
    · rw [receiveLoop_eq, if_neg h2]
      refine ⟨?_, ?_, rfl⟩
      · simp only [List.length_append, List.length_cons, List.length_nil]
        omega
      · simp only [List.length_append]
        omega

/-- C2 (amended): each call requests `min(10, limit - already_fetched)`
items, and when every response is a successful batch of exactly the
size requested — the only situation in which the spec's call count is
determined — the loop issues exactly `ceil(L/10)` calls and retrieves
exactly `L` messages. A call that returns fewer (but more than zero)
items than requested does not stop the loop: the loop ends only when
`L` items have been retrieved or a call returns zero items. -/
theorem fetch_call_count {M : Type} (oracle : List (Except Unit (List M)))
    (L : Nat) (hL : 0 < L)
    (hfull : ∀ k, k < (L + 9) / 10 →
      ∃ msgs, oracle.get? k = Option.some (Except.ok msgs) ∧
        msgs.length = min 10 (L - 10 * k)) :
    (get_messages_from_queue oracle L).calls.length = (L + 9) / 10 ∧
    (get_messages_from_queue oracle L).messages.length = L ∧
    (get_messages_from_queue oracle L).errored = false := by
  have h := receiveLoop_full L oracle 0 [] [] hL (by simpa using hfull)
  simpa [get_messages_from_queue] using h

/-- C2 (witness): a limit of 25 over full batches of 10, 10 and 5
messages issues exactly 3 calls and retrieves 25 messages. -/
theorem fetch_call_count_witness :
    (get_messages_from_queue
        [Except.ok (List.replicate 10 0), Except.ok (List.replicate 10 0),
         Except.ok (List.replicate 5 0)] 25).calls.length = 3 ∧
    (get_messages_from_queue
        [Except.ok (List.replicate 10 0), Except.ok (List.replicate 10 0),
         Except.ok (List.replicate 5 0)] 25).messages.length = 25 ∧
    (get_messages_from_queue
        [Except.ok (List.replicate 10 0), Except.ok (List.replicate 10 0),
         Except.ok (List.replicate 5 0)] 25).errored = false :=
  fetch_call_count
    [Except.ok (List.replicate 10 0), Except.ok (List.replicate 10 0),
     Except.ok (List.replicate 5 0)] 25 (by decide)
    (by
      intro k hk
      have hk3 : k < 3 := by omega
      interval_cases k
      · exact ⟨List.replicate 10 0, rfl, by decide⟩
      · exact ⟨List.replicate 10 0, rfl, by decide⟩
      · exact ⟨List.replicate 5 0, rfl, by decide⟩)

/-- Per-batch behaviour of the per-message block: folding it over a
batch adds to each counter the number of messages of the corresponding
classification, and to `total_processed` the batch length. -/
theorem foldl_processMessage (field_name : String) (field_value : PyVal) :
    ∀ (msgs : List Body) (st : CountState),
      msgs.foldl (processMessage field_name field_value) st =
        CountState.mk
          (st.total_count + msgs.countP (matches_field field_name field_value))
          (st.total_processed + msgs.length)
          (st.messages_with_json_errors + msgs.countP isJsonError)
          (st.messages_without_field + msgs.countP (isMissingField field_name)) := by
  intro msgs
  induction msgs with
  | nil => intro st; simp
  | cons b rest ih =>
    intro st
    rw [List.foldl_cons, ih]
    cases b with
    | invalid =>
      simp only [processMessage, matches_field, isJsonError, isMissingField,
        List.countP_cons, List.length_cons]
      simp
      omega
    | nonDict =>
      simp only [processMessage, matches_field, isJsonError, isMissingField,
        List.countP_cons, List.length_cons]
      simp
      omega
    | dict kvs =>
      cases hl : kvs.lookup field_name with
      | none =>
        simp only [processMessage, matches_field, isJsonError, isMissingField,
          List.countP_cons, List.length_cons, hl]
        simp
        omega
      | some v =>
        cases hc : safe_compare_values v field_value with
        | false =>
          simp only [processMessage, matches_field, isJsonError, isMissingField,
            List.countP_cons, List.length_cons, hl, hc]
          simp
          omega
        | true =>
          simp only [processMessage, matches_field, isJsonError, isMissingField,
            List.countP_cons, List.length_cons, hl, hc]
          simp
          omega

/-- Characterisation of the counting loop: the final counters are the
initial counters plus, over the stream of bodies actually processed,
the number of matches, the stream length, the number of JSON errors,
and the number of missing-field dicts, respectively. -/
theorem countMessagesLoop_spec (field_name : String) (field_value : PyVal)
    (max_messages : Option Nat) :
    ∀ (oracle : List (Except Unit (List Body))) (st : CountState),
      countMessagesLoop field_name field_value max_messages oracle st =
        CountState.mk
          (st.total_count + (processedBodies max_messages oracle
            st.total_processed).countP (matches_field field_name field_value))
          (st.total_processed + (processedBodies max_messages oracle
            st.total_processed).length)
          (st.messages_with_json_errors + (processedBodies max_messages oracle
            st.total_processed).countP isJsonError)
          (st.messages_without_field + (processedBodies max_messages oracle
            st.total_processed).countP (isMissingField field_name)) := by
  intro oracle
  induction oracle with
  | nil =>
    intro st
    simp [countMessagesLoop, processedBodies]
  | cons resp rest ih =>
    intro st
    simp only [countMessagesLoop, processedBodies]
    by_cases hlim : mmTruthy max_messages = true ∧
        max_messages.getD 0 ≤ st.total_processed
    · rw [if_pos hlim, if_pos hlim]
      simp
    · rw [if_neg hlim, if_neg hlim]
      cases resp with
      | error e => simp
      | ok msgs =>
        dsimp only
        by_cases hemp : msgs.isEmpty = true
        · rw [if_pos hemp, if_pos hemp]
          simp
        · rw [if_neg hemp, if_neg hemp]
          rw [foldl_processMessage, ih]
          simp only [List.countP_append, List.length_append, CountState.mk.injEq]
          refine ⟨by omega, by omega, by omega, by omega⟩

/-- Every body falls in exactly one of the four buckets, so the four
counts partition the processed stream. -/
theorem countP_partition (field_name : String) (field_value : PyVal)
    (l : List Body) :
    l.countP (matches_field field_name field_value) + l.countP isJsonError
      + l.countP (isMissingField field_name)
      + l.countP (isOtherNonMatch field_name field_value) = l.length := by
  induction l with
  | nil => simp
  | cons b rest ih =>
    simp only [List.countP_cons, List.length_cons]
    have hb : (if matches_field field_name field_value b then 1 else 0)
        + (if isJsonError b then 1 else 0)
        + (if isMissingField field_name b then 1 else 0)
        + (if isOtherNonMatch field_name field_value b then 1 else 0) = 1 := by
      cases b with
      | invalid => simp [matches_field, isJsonError, isMissingField, isOtherNonMatch]
      | nonDict => simp [matches_field, isJsonError, isMissingField, isOtherNonMatch]
      | dict kvs =>
        cases hl : kvs.lookup field_name with
        | none => simp [matches_field, isJsonError, isMissingField, isOtherNonMatch, hl]
        | some v =>
          cases hc : safe_compare_values v field_value with
          | false =>
            simp [matches_field, isJsonError, isMissingField, isOtherNonMatch, hl, hc]
          | true =>
            simp [matches_field, isJsonError, isMissingField, isOtherNonMatch, hl, hc]
    omega

/-- C6: over any run of `count_messages_by_field`, `total_processed`
counts every processed message exactly once (it equals the length of
the processed stream), the four buckets partition the processed
messages — `matched + json_errors + missing_field + other = processed`
— and in particular `matched + json_errors + missing_field` never
exceeds `processed`. -/
theorem count_by_field_invariant (field_name : String) (field_value : PyVal)
    (max_messages : Option Nat) (oracle : List (Except Unit (List Body))) :
    (countMessagesLoop field_name field_value max_messages oracle
        initCountState).total_processed
      = (processedBodies max_messages oracle 0).length ∧
    (countMessagesLoop field_name field_value max_messages oracle
        initCountState).total_count
      + (countMessagesLoop field_name field_value max_messages oracle
        initCountState).messages_with_json_errors
      + (countMessagesLoop field_name field_value max_messages oracle
        initCountState).messages_without_field
      + (processedBodies max_messages oracle 0).countP
          (isOtherNonMatch field_name field_value)
      = (countMessagesLoop field_name field_value max_messages oracle
        initCountState).total_processed ∧
    (countMessagesLoop field_name field_value max_messages oracle
        initCountState).total_count
      + (countMessagesLoop field_name field_value max_messages oracle
        initCountState).messages_with_json_errors
      + (countMessagesLoop field_name field_value max_messages oracle
        initCountState).messages_without_field
      ≤ (countMessagesLoop field_name field_value max_messages oracle
        initCountState).total_processed := by
  rw [countMessagesLoop_spec]
  have hp := countP_partition field_name field_value (processedBodies max_messages oracle 0)
  simp only [initCountState]
  refine ⟨by omega, by omega, by omega⟩

/-- Transport trace for the C8 counterexample: one batch with a
matching message and a message whose body fails to parse. -/
def bodiesC8 : List (Except Unit (List Body)) :=
  [Except.ok [Body.dict [("status", PyVal.str "FAILED")], Body.invalid]]

/-- C8 (counterexample): the function returns the bare integer 1 — the
matched count alone — while the run processed 2 messages with 1 JSON
error; the processed/json_errors/missing_field counters are internal
state that the returned value does not contain. -/
theorem count_by_field_returns_bare_count :
    count_messages_by_field "status" (PyVal.str "failed") Option.none bodiesC8 = 1 ∧
    (countMessagesLoop "status" (PyVal.str "failed") Option.none bodiesC8
        initCountState).total_processed = 2 ∧
    (countMessagesLoop "status" (PyVal.str "failed") Option.none bodiesC8
        initCountState).messages_with_json_errors = 1 ∧
    count_messages_by_field "status" (PyVal.str "failed") Option.none bodiesC8
      ≠ (countMessagesLoop "status" (PyVal.str "failed") Option.none bodiesC8
        initCountState).total_processed := by decide

/-- C8 (amended): `count_messages_by_field` returns only the matched
count as an integer — the number of processed messages whose body is a
JSON object carrying the field with a value that compares equal — and
not a record of the four counters. -/
theorem count_by_field_returns_matched_count (field_name : String)
    (field_value : PyVal) (max_messages : Option Nat)
    (oracle : List (Except Unit (List Body))) :
    count_messages_by_field field_name field_value max_messages oracle
      = (processedBodies max_messages oracle 0).countP
          (matches_field field_name field_value) := by
  unfold count_messages_by_field
  rw [countMessagesLoop_spec]
  simp [initCountState]
